import Mathlib

/-!
Verification of the interactive crop-to-pixel pipeline of the
`pdf-edit-print` repository.

The embedding mirrors `src/components/PDFViewer.tsx` (the genuine-extraction
version of the viewer) and `src/pages/Index.tsx`. Display- and pixel-space
coordinates are JavaScript numbers; the arithmetic performed on them here
(additions, subtractions, multiplications, divisions, `Math.min`, `Math.max`,
`Math.abs`) is modelled over `ℚ`.
-/

namespace PdfEditPrint

/-- `CropArea` (PDFViewer.tsx lines 23-28): a selection rectangle in display
coordinates, relative to the page container's top-left corner. -/
structure CropArea where
  x : ℚ
  y : ℚ
  width : ℚ
  height : ℚ
  deriving DecidableEq

/-- An on-screen bounding box as returned by `getBoundingClientRect()`. -/
structure DOMRect where
  left : ℚ
  top : ℚ
  width : ℚ
  height : ℚ
  deriving DecidableEq

/-- The rendered raster canvas: its native pixel dimensions
(`canvas.width` / `canvas.height`) together with its current on-screen
bounding box (`canvas.getBoundingClientRect()`). -/
structure Canvas where
  width : ℚ
  height : ℚ
  boundingRect : DOMRect
  deriving DecidableEq

/-- A rectangle in the raster's native pixel space: the
`(sourceX, sourceY, sourceWidth, sourceHeight)` quadruple that
`extractCroppedImage` feeds to `drawImage`. -/
structure PixelRect where
  x : ℚ
  y : ℚ
  width : ℚ
  height : ℚ
  deriving DecidableEq

/-- PDFViewer.tsx line 159: `offsetX = canvasRect.left - pageRect.left`. -/
def offsetX (cv : Canvas) (pageRect : DOMRect) : ℚ :=
  cv.boundingRect.left - pageRect.left

/-- PDFViewer.tsx line 160: `offsetY = canvasRect.top - pageRect.top`. -/
def offsetY (cv : Canvas) (pageRect : DOMRect) : ℚ :=
  cv.boundingRect.top - pageRect.top

/-- PDFViewer.tsx line 167: `scaleX = sourceCanvas.width / canvasRect.width`. -/
def scaleX (cv : Canvas) : ℚ :=
  cv.width / cv.boundingRect.width

/-- PDFViewer.tsx line 168: `scaleY = sourceCanvas.height / canvasRect.height`. -/
def scaleY (cv : Canvas) : ℚ :=
  cv.height / cv.boundingRect.height

/-- PDFViewer.tsx lines 163, 171:
`sourceX = Math.max(0, (cropArea.x - offsetX) * scaleX)`. -/
def sourceX (ca : CropArea) (cv : Canvas) (pageRect : DOMRect) : ℚ :=
  max 0 ((ca.x - offsetX cv pageRect) * scaleX cv)

/-- PDFViewer.tsx lines 164, 172:
`sourceY = Math.max(0, (cropArea.y - offsetY) * scaleY)`. -/
def sourceY (ca : CropArea) (cv : Canvas) (pageRect : DOMRect) : ℚ :=
  max 0 ((ca.y - offsetY cv pageRect) * scaleY cv)

/-- PDFViewer.tsx line 173:
`sourceWidth = Math.min(cropArea.width * scaleX, sourceCanvas.width - sourceX)`. -/
def sourceWidth (ca : CropArea) (cv : Canvas) (pageRect : DOMRect) : ℚ :=
  min (ca.width * scaleX cv) (cv.width - sourceX ca cv pageRect)

/-- PDFViewer.tsx line 174:
`sourceHeight = Math.min(cropArea.height * scaleY, sourceCanvas.height - sourceY)`. -/
def sourceHeight (ca : CropArea) (cv : Canvas) (pageRect : DOMRect) : ℚ :=
  min (ca.height * scaleY cv) (cv.height - sourceY ca cv pageRect)

/-- `extractCroppedImage` (PDFViewer.tsx lines 151-194), coordinate-mapping
part. Returns `none` when any of `cropArea`, `canvasRef.current`,
`pageRef.current` is null (line 152) or when
`sourceWidth <= 0 || sourceHeight <= 0` (line 176); otherwise the
pixel-space source rectangle that is copied into the cropped canvas.
The subsequent raster copy and PNG encoding (lines 179-193) act on an
external 2d context and are not part of the coordinate mapping. -/
def extractCroppedImage :
    Option CropArea → Option Canvas → Option DOMRect → Option PixelRect
  | some ca, some cv, some pageRect =>
      if sourceWidth ca cv pageRect ≤ 0 ∨ sourceHeight ca cv pageRect ≤ 0 then
        none
      else
        some ⟨sourceX ca cv pageRect, sourceY ca cv pageRect,
              sourceWidth ca cv pageRect, sourceHeight ca cv pageRect⟩
  | _, _, _ => none

/-- C1: whenever the coordinate mapping returns a pixel rectangle, that
rectangle lies inside the raster's native bounds: `0 ≤ x`, `0 ≤ y`,
`x + width ≤ nativeWidth`, `y + height ≤ nativeHeight`, for every committed
selection and every raster geometry with positive native and display
dimensions — in particular also when the drawn rectangle extends past the
raster's right or bottom edge by any amount. -/
theorem extractCroppedImage_within_bounds
    (ca : CropArea) (cv : Canvas) (pageRect : DOMRect) (p : PixelRect)
    (hnw : 0 < cv.width) (hnh : 0 < cv.height)
    (hdw : 0 < cv.boundingRect.width) (hdh : 0 < cv.boundingRect.height)
    (h : extractCroppedImage (some ca) (some cv) (some pageRect) = some p) :
    0 ≤ p.x ∧ 0 ≤ p.y ∧ p.x + p.width ≤ cv.width ∧ p.y + p.height ≤ cv.height := by
  simp only [extractCroppedImage] at h
  split_ifs at h with hcond
  rw [Option.some_inj] at h
  subst h
  refine ⟨le_max_left _ _, le_max_left _ _, ?_, ?_⟩
  · have hw : sourceWidth ca cv pageRect ≤ cv.width - sourceX ca cv pageRect :=
      min_le_right _ _
    dsimp only
    linarith
  · have hh : sourceHeight ca cv pageRect ≤ cv.height - sourceY ca cv pageRect :=
      min_le_right _ _
    dsimp only
    linarith

/-- Witness for C1: a selection reaching 100 display pixels past the bottom
edge of a 100×100 raster at identity scale is clamped to exactly the raster,
and the bound holds there. -/
theorem extractCroppedImage_within_bounds_witness :
    0 ≤ (⟨0, 0, 100, 100⟩ : PixelRect).x ∧
    0 ≤ (⟨0, 0, 100, 100⟩ : PixelRect).y ∧
    (⟨0, 0, 100, 100⟩ : PixelRect).x + (⟨0, 0, 100, 100⟩ : PixelRect).width ≤
      (⟨100, 100, ⟨0, 0, 100, 100⟩⟩ : Canvas).width ∧
    (⟨0, 0, 100, 100⟩ : PixelRect).y + (⟨0, 0, 100, 100⟩ : PixelRect).height ≤
      (⟨100, 100, ⟨0, 0, 100, 100⟩⟩ : Canvas).height :=
  extractCroppedImage_within_bounds ⟨0, 0, 100, 200⟩ ⟨100, 100, ⟨0, 0, 100, 100⟩⟩
    ⟨0, 0, 600, 600⟩ ⟨0, 0, 100, 100⟩ (by norm_num) (by norm_num) (by norm_num)
    (by norm_num)
    (by simp only [extractCroppedImage]
        norm_num [sourceX, sourceY, sourceWidth, sourceHeight, scaleX, scaleY,
          offsetX, offsetY])

/-- C4 (amended): given present selection/canvas/page references and positive
native and display dimensions, the coordinate mapping returns `none` iff the
clamped pixel-space width or height is `≤ 0`; in particular a selection lying
entirely beyond the raster's right edge, or entirely beyond its bottom edge,
maps to `none`. (A selection entirely off the left or top edge is clamped to
the surface and can still map to a rectangle; see the counterexample.) -/
theorem extractCroppedImage_none_iff
    (ca : CropArea) (cv : Canvas) (pageRect : DOMRect)
    (hnw : 0 < cv.width) (hnh : 0 < cv.height)
    (hdw : 0 < cv.boundingRect.width) (hdh : 0 < cv.boundingRect.height) :
    (extractCroppedImage (some ca) (some cv) (some pageRect) = none ↔
      sourceWidth ca cv pageRect ≤ 0 ∨ sourceHeight ca cv pageRect ≤ 0) ∧
    (offsetX cv pageRect + cv.boundingRect.width ≤ ca.x →
      extractCroppedImage (some ca) (some cv) (some pageRect) = none) ∧
    (offsetY cv pageRect + cv.boundingRect.height ≤ ca.y →
      extractCroppedImage (some ca) (some cv) (some pageRect) = none) := by
  have hiff : extractCroppedImage (some ca) (some cv) (some pageRect) = none ↔
      sourceWidth ca cv pageRect ≤ 0 ∨ sourceHeight ca cv pageRect ≤ 0 := by
    simp only [extractCroppedImage]
    split_ifs with hcond
    · simp [hcond]
    · simp [hcond]
  refine ⟨hiff, ?_, ?_⟩
  · intro hx
    apply hiff.mpr
    left
    have hscale : 0 < scaleX cv := div_pos hnw hdw
    have h1 : cv.boundingRect.width ≤ ca.x - offsetX cv pageRect := by linarith
    have h2 : cv.boundingRect.width * scaleX cv ≤
        (ca.x - offsetX cv pageRect) * scaleX cv :=
      mul_le_mul_of_nonneg_right h1 (le_of_lt hscale)
    have h3 : cv.boundingRect.width * scaleX cv = cv.width := by
      rw [scaleX]
      field_simp
    have hsx : cv.width ≤ sourceX ca cv pageRect := by
      calc cv.width = cv.boundingRect.width * scaleX cv := h3.symm
        _ ≤ (ca.x - offsetX cv pageRect) * scaleX cv := h2
        _ ≤ sourceX ca cv pageRect := le_max_right _ _
    unfold sourceWidth
    exact le_trans (min_le_right _ _) (by linarith)
  · intro hy
    apply hiff.mpr
    right
    have hscale : 0 < scaleY cv := div_pos hnh hdh
    have h1 : cv.boundingRect.height ≤ ca.y - offsetY cv pageRect := by linarith
    have h2 : cv.boundingRect.height * scaleY cv ≤
        (ca.y - offsetY cv pageRect) * scaleY cv :=
      mul_le_mul_of_nonneg_right h1 (le_of_lt hscale)
    have h3 : cv.boundingRect.height * scaleY cv = cv.height := by
      rw [scaleY]
      field_simp
    have hsy : cv.height ≤ sourceY ca cv pageRect := by
      calc cv.height = cv.boundingRect.height * scaleY cv := h3.symm
        _ ≤ (ca.y - offsetY cv pageRect) * scaleY cv := h2
        _ ≤ sourceY ca cv pageRect := le_max_right _ _
    unfold sourceHeight
    exact le_trans (min_le_right _ _) (by linarith)

/-- Witness for C4 (amended): a selection starting at display x = 200, entirely
beyond the right edge of a raster whose display box is [0,100], maps to
`none`. -/
theorem extractCroppedImage_none_iff_witness :
    extractCroppedImage (some ⟨200, 0, 20, 20⟩)
        (some ⟨100, 100, ⟨0, 0, 100, 100⟩⟩) (some ⟨0, 0, 600, 600⟩) = none :=
  (extractCroppedImage_none_iff ⟨200, 0, 20, 20⟩ ⟨100, 100, ⟨0, 0, 100, 100⟩⟩
      ⟨0, 0, 600, 600⟩ (by norm_num) (by norm_num) (by norm_num) (by norm_num)).2.1
    (by norm_num [offsetX])

/-- C4 counterexample: a 20×20 selection whose right edge (display x = 20)
lies left of the canvas, which starts at display offset 50 — so the selection
is entirely outside the raster bounds — is still mapped to the non-null pixel
rectangle (0, 0, 20, 20): the left clamp `max 0` silently slides the
selection onto the surface instead of rejecting it. -/
theorem extractCroppedImage_outside_counterexample :
    (⟨0, 0, 20, 20⟩ : CropArea).x + (⟨0, 0, 20, 20⟩ : CropArea).width ≤
      offsetX ⟨100, 100, ⟨50, 0, 100, 100⟩⟩ ⟨0, 0, 600, 600⟩ ∧
    extractCroppedImage (some ⟨0, 0, 20, 20⟩)
        (some ⟨100, 100, ⟨50, 0, 100, 100⟩⟩) (some ⟨0, 0, 600, 600⟩) =
      some ⟨0, 0, 20, 20⟩ := by
  constructor
  · norm_num [offsetX]
  · simp only [extractCroppedImage]
    norm_num [sourceX, sourceY, sourceWidth, sourceHeight, scaleX, scaleY,
      offsetX, offsetY, min_def, max_def]

/-- The pixel rectangle predicted by the specification's identity-zoom
property, stated from the spec's words ("the pixel rect equals the display
rect (modulo offset subtraction)"): the display rectangle translated by the
canvas's on-screen offset, width and height unchanged. Used to compare the
spec's prediction against `extractCroppedImage`. -/
def specIdentityPixelRect (ca : CropArea) (cv : Canvas) (pageRect : DOMRect) :
    PixelRect :=
  ⟨ca.x - offsetX cv pageRect, ca.y - offsetY cv pageRect, ca.width, ca.height⟩

/-- C9 (amended): under identity zoom (display size equals native size), for a
positive-size selection whose translated rectangle lies within the raster
bounds, the mapping applies no scaling and returns exactly the display
rectangle translated by the canvas's on-screen offset. -/
theorem extractCroppedImage_identity_zoom
    (ca : CropArea) (cv : Canvas) (pageRect : DOMRect)
    (hw : cv.boundingRect.width = cv.width)
    (hh : cv.boundingRect.height = cv.height)
    (hdw : 0 < cv.boundingRect.width) (hdh : 0 < cv.boundingRect.height)
    (hwpos : 0 < ca.width) (hhpos : 0 < ca.height)
    (hx0 : 0 ≤ ca.x - offsetX cv pageRect)
    (hy0 : 0 ≤ ca.y - offsetY cv pageRect)
    (hxw : ca.x - offsetX cv pageRect + ca.width ≤ cv.width)
    (hyh : ca.y - offsetY cv pageRect + ca.height ≤ cv.height) :
    extractCroppedImage (some ca) (some cv) (some pageRect) =
      some (specIdentityPixelRect ca cv pageRect) := by
  have hnw : (0 : ℚ) < cv.width := hw ▸ hdw
  have hnh : (0 : ℚ) < cv.height := hh ▸ hdh
  have hsx : scaleX cv = 1 := by rw [scaleX, hw, div_self (ne_of_gt hnw)]
  have hsy : scaleY cv = 1 := by rw [scaleY, hh, div_self (ne_of_gt hnh)]
  have hX : sourceX ca cv pageRect = ca.x - offsetX cv pageRect := by
    simp only [sourceX, hsx, mul_one]
    exact max_eq_right hx0
  have hY : sourceY ca cv pageRect = ca.y - offsetY cv pageRect := by
    simp only [sourceY, hsy, mul_one]
    exact max_eq_right hy0
  have hW : sourceWidth ca cv pageRect = ca.width := by
    simp only [sourceWidth, hsx, mul_one, hX]
    exact min_eq_left (by linarith)
  have hH : sourceHeight ca cv pageRect = ca.height := by
    simp only [sourceHeight, hsy, mul_one, hY]
    exact min_eq_left (by linarith)
  have hcond : ¬(ca.width ≤ 0 ∨ ca.height ≤ 0) := by
    push_neg
    exact ⟨hwpos, hhpos⟩
  simp only [extractCroppedImage, hX, hY, hW, hH, specIdentityPixelRect,
    if_neg hcond]

/-- Witness for C9 (amended): identity zoom with canvas offset 10; the
selection at display (15, 5) maps to pixel (5, 5) with its 20×20 size
unchanged. -/
theorem extractCroppedImage_identity_zoom_witness :
    extractCroppedImage (some ⟨15, 5, 20, 20⟩)
        (some ⟨100, 100, ⟨10, 0, 100, 100⟩⟩) (some ⟨0, 0, 600, 600⟩) =
      some (specIdentityPixelRect ⟨15, 5, 20, 20⟩ ⟨100, 100, ⟨10, 0, 100, 100⟩⟩
        ⟨0, 0, 600, 600⟩) :=
  extractCroppedImage_identity_zoom ⟨15, 5, 20, 20⟩ ⟨100, 100, ⟨10, 0, 100, 100⟩⟩
    ⟨0, 0, 600, 600⟩ rfl rfl (by norm_num) (by norm_num) (by norm_num) (by norm_num)
    (by norm_num [offsetX]) (by norm_num [offsetY])
    (by norm_num [offsetX]) (by norm_num [offsetY])

/-- C9 counterexample: identity zoom (native 100×100, display 100×100) with
the canvas at display offset 10. The selection at display x = 0 is clamped,
so the mapping yields pixel rect (0, 5, 20, 20), while the display rectangle
translated by the offset would be (-10, 5, 20, 20): under identity zoom the
pixel rect does not always equal the offset-translated display rect. -/
theorem extractCroppedImage_identity_counterexample :
    (⟨100, 100, ⟨10, 0, 100, 100⟩⟩ : Canvas).boundingRect.width =
      (⟨100, 100, ⟨10, 0, 100, 100⟩⟩ : Canvas).width ∧
    (⟨100, 100, ⟨10, 0, 100, 100⟩⟩ : Canvas).boundingRect.height =
      (⟨100, 100, ⟨10, 0, 100, 100⟩⟩ : Canvas).height ∧
    extractCroppedImage (some ⟨0, 5, 20, 20⟩)
        (some ⟨100, 100, ⟨10, 0, 100, 100⟩⟩) (some ⟨0, 0, 600, 600⟩) =
      some ⟨0, 5, 20, 20⟩ ∧
    specIdentityPixelRect ⟨0, 5, 20, 20⟩ ⟨100, 100, ⟨10, 0, 100, 100⟩⟩
        ⟨0, 0, 600, 600⟩ ≠ ⟨0, 5, 20, 20⟩ := by
  refine ⟨rfl, rfl, ?_, ?_⟩
  · simp only [extractCroppedImage]
    norm_num [sourceX, sourceY, sourceWidth, sourceHeight, scaleX, scaleY,
      offsetX, offsetY, min_def, max_def]
  · simp only [specIdentityPixelRect]
    norm_num [offsetX, offsetY, PixelRect.mk.injEq]

/-- A pointer position, as the pair of a mouse event's client coordinates or
the recorded `startPos` drag anchor. -/
structure Point where
  x : ℚ
  y : ℚ
  deriving DecidableEq

/-- `handleMouseMove` (PDFViewer.tsx lines 127-140): while a drag is in
progress and the page container ref is present, recompute the selection
rectangle from the drag anchor `startPos` and the current pointer position
(client coordinates translated by the page container's bounding box);
otherwise leave the current selection unchanged. -/
def handleMouseMove (isDrawing : Bool) (pageRef : Option DOMRect)
    (startPos : Point) (clientX clientY : ℚ) (cropArea : Option CropArea) :
    Option CropArea :=
  match isDrawing, pageRef with
  | true, some rect =>
      some ⟨min startPos.x (clientX - rect.left),
            min startPos.y (clientY - rect.top),
            |clientX - rect.left - startPos.x|,
            |clientY - rect.top - startPos.y|⟩
  | _, _ => cropArea

/-- C2: during a drag, `handleMouseMove` always produces the min/abs
normalized rectangle — x = min(anchor.x, point.x), y = min(anchor.y, point.y),
width = |point.x - anchor.x|, height = |point.y - anchor.y| — whose width and
height are non-negative regardless of drag direction; in particular a drag
from anchor (50, 50) to pointer (10, 10) yields the rectangle
(10, 10, 40, 40). -/
theorem handleMouseMove_normalizes :
    (∀ (r : DOMRect) (startPos : Point) (clientX clientY : ℚ)
        (cropArea : Option CropArea),
      ∃ c : CropArea,
        handleMouseMove true (some r) startPos clientX clientY cropArea = some c ∧
        c.x = min startPos.x (clientX - r.left) ∧
        c.y = min startPos.y (clientY - r.top) ∧
        c.width = |clientX - r.left - startPos.x| ∧
        c.height = |clientY - r.top - startPos.y| ∧
        0 ≤ c.width ∧ 0 ≤ c.height) ∧
    handleMouseMove true (some ⟨0, 0, 800, 600⟩) ⟨50, 50⟩ 10 10 none =
      some ⟨10, 10, 40, 40⟩ := by
  constructor
  · intro r startPos clientX clientY cropArea
    exact ⟨_, rfl, rfl, rfl, rfl, rfl, abs_nonneg _, abs_nonneg _⟩
  · simp only [handleMouseMove]
    norm_num [min_def, abs_eq_max_neg, max_def]

/-- What the `onPrint` callback of PDFViewer receives from `handlePrint`
(PDFViewer.tsx lines 196-204): the cropped-image payload (`none` stands for
the null image data of whole-page printing), the current page number, and
whether cropped extraction was invoked at all. -/
def handlePrint (cropArea : Option CropArea) (canvasRef : Option Canvas)
    (pageRef : Option DOMRect) (currentPage : ℕ) :
    Option PixelRect × ℕ × Bool :=
  match cropArea with
  | some ca =>
      if 10 < ca.width ∧ 10 < ca.height then
        (extractCroppedImage (some ca) canvasRef pageRef, currentPage, true)
      else (none, currentPage, false)
  | none => (none, currentPage, false)

/-- The action taken by the Index page print handler. -/
inductive IndexPrintAction where
  | wholePage
  | croppedPreview
  deriving DecidableEq

/-- `handlePrint` of Index.tsx (lines 45-51) as composed with PDFViewer: the
payload it actually receives is the data-URL string or null that PDFViewer
passes to `onPrint`. On null it calls `window.print()` (whole page). On a
non-null string every `cropArea.width < 10`-style comparison reads
`undefined`, is false, and the handler proceeds to the cropped preview. -/
def indexHandlePrint : Option PixelRect → IndexPrintAction
  | none => IndexPrintAction.wholePage
  | some _ => IndexPrintAction.croppedPreview

/-- C3: cropped extraction runs exactly when the current selection is
significant (width > 10 and height > 10 in display pixels); an absent or
sub-threshold selection makes PDFViewer pass a null payload to the print
callback, and the Index handler then falls back to whole-page printing. -/
theorem handlePrint_significant_iff :
    (∀ (cropArea : Option CropArea) (cv : Option Canvas) (pr : Option DOMRect)
        (page : ℕ),
      (handlePrint cropArea cv pr page).2.2 = true ↔
        ∃ ca, cropArea = some ca ∧ 10 < ca.width ∧ 10 < ca.height) ∧
    (∀ (cropArea : Option CropArea) (cv : Option Canvas) (pr : Option DOMRect)
        (page : ℕ),
      (∀ ca, cropArea = some ca → ca.width ≤ 10 ∨ ca.height ≤ 10) →
        (handlePrint cropArea cv pr page).1 = none ∧
        indexHandlePrint (handlePrint cropArea cv pr page).1 =
          IndexPrintAction.wholePage) := by
  constructor
  · intro cropArea cv pr page
    match cropArea with
    | none => simp [handlePrint]
    | some ca =>
        simp only [handlePrint]
        split_ifs with hsig
        · simpa using hsig
        · simpa using hsig
  · intro cropArea cv pr page hsmall
    match cropArea with
    | none => simp [handlePrint, indexHandlePrint]
    | some ca =>
        have hnot : ¬(10 < ca.width ∧ 10 < ca.height) := by
          rcases hsmall ca rfl with h | h
          · intro hc
            linarith [hc.1]
          · intro hc
            linarith [hc.2]
        simp [handlePrint, hnot, indexHandlePrint]

/-- Witness for C3: a 5×5 selection is sub-threshold, the callback payload is
null, and the Index handler prints the whole page. -/
theorem handlePrint_significant_iff_witness :
    (handlePrint (some ⟨0, 0, 5, 5⟩) none none 1).1 = none ∧
    indexHandlePrint (handlePrint (some ⟨0, 0, 5, 5⟩) none none 1).1 =
      IndexPrintAction.wholePage :=
  handlePrint_significant_iff.2 (some ⟨0, 0, 5, 5⟩) none none 1
    (by intro ca hca
        rw [Option.some_inj] at hca
        subst hca
        left
        norm_num)

/-- C10: when no raster canvas handle is available (the canvas ref is null),
the mapping returns null for every selection — a significant one included —
`handlePrint` passes a null payload to the print callback, and the Index
handler silently degrades to whole-page printing. -/
theorem extractCroppedImage_no_canvas (ca : CropArea) (pr : Option DOMRect)
    (page : ℕ) :
    extractCroppedImage (some ca) none pr = none ∧
    (handlePrint (some ca) none pr page).1 = none ∧
    indexHandlePrint (handlePrint (some ca) none pr page).1 =
      IndexPrintAction.wholePage := by
  have hext : extractCroppedImage (some ca) none pr = none := by
    cases pr <;> rfl
  refine ⟨hext, ?_, ?_⟩ <;>
  · simp only [handlePrint]
    split_ifs with h <;> simp [hext, indexHandlePrint]

/-- The viewer state touched by navigation and zoom (PDFViewer.tsx lines
37-41): current page, page count, zoom scale, and the current selection. -/
structure ViewerState where
  currentPage : ℕ
  numPages : ℕ
  scale : ℚ
  cropArea : Option CropArea
  deriving DecidableEq

/-- `nextPage` (PDFViewer.tsx lines 82-87): if `currentPage < numPages`,
advance one page and clear the selection; otherwise do nothing. -/
def nextPage (s : ViewerState) : ViewerState :=
  if s.currentPage < s.numPages then
    { s with currentPage := s.currentPage + 1, cropArea := none }
  else s

/-- `prevPage` (PDFViewer.tsx lines 89-94): if `currentPage > 1`, go back one
page and clear the selection; otherwise do nothing. -/
def prevPage (s : ViewerState) : ViewerState :=
  if 1 < s.currentPage then
    { s with currentPage := s.currentPage - 1, cropArea := none }
  else s

/-- `zoomIn` (PDFViewer.tsx line 96): `setScale(prev => Math.min(prev + 0.25, 3))`. -/
def zoomIn (s : ViewerState) : ViewerState :=
  { s with scale := min (s.scale + 0.25) 3 }

/-- `zoomOut` (PDFViewer.tsx line 97): `setScale(prev => Math.max(prev - 0.25, 0.5))`. -/
def zoomOut (s : ViewerState) : ViewerState :=
  { s with scale := max (s.scale - 0.25) 0.5 }

/-- `resetZoom` (PDFViewer.tsx line 98): `setScale(1)`. -/
def resetZoom (s : ViewerState) : ViewerState :=
  { s with scale := 1 }

/-- C5: page navigation in the viewer steps one page at a time (`nextPage`,
`prevPage`); a step whose target page falls outside [1, numPages] is a no-op
leaving `currentPage` and any existing selection unchanged, and an in-range
step sets `currentPage` to the target and clears the selection. In
particular, from page 3 of a 10-page document with an active significant
selection, `nextPage` reaches page 4 with the selection cleared, while
`nextPage` at page 10 (target beyond the page count) changes nothing. -/
theorem navigation_range_and_clear :
    (∀ s : ViewerState,
      (s.numPages < s.currentPage + 1 → nextPage s = s) ∧
      (s.currentPage + 1 ≤ s.numPages →
        nextPage s = { s with currentPage := s.currentPage + 1, cropArea := none }) ∧
      (s.currentPage - 1 < 1 → prevPage s = s) ∧
      (1 ≤ s.currentPage - 1 →
        prevPage s = { s with currentPage := s.currentPage - 1, cropArea := none })) ∧
    nextPage ⟨3, 10, 1, some ⟨0, 0, 50, 50⟩⟩ = ⟨4, 10, 1, none⟩ ∧
    nextPage ⟨10, 10, 1, some ⟨0, 0, 50, 50⟩⟩ = ⟨10, 10, 1, some ⟨0, 0, 50, 50⟩⟩ := by
  refine ⟨?_, rfl, rfl⟩
  intro s
  refine ⟨?_, ?_, ?_, ?_⟩
  · intro h
    simp only [nextPage]
    rw [if_neg (by omega)]
  · intro h
    simp only [nextPage]
    rw [if_pos (by omega)]
  · intro h
    simp only [prevPage]
    rw [if_neg (by omega)]
  · intro h
    simp only [prevPage]
    rw [if_pos (by omega)]

/-- Witness for C5: at page 10 of 10, the target page 11 is out of range and
`nextPage` leaves the whole state — selection included — unchanged. -/
theorem navigation_range_and_clear_witness :
    nextPage ⟨10, 10, 1, some ⟨0, 0, 50, 50⟩⟩ =
      (⟨10, 10, 1, some ⟨0, 0, 50, 50⟩⟩ : ViewerState) :=
  ((navigation_range_and_clear.1 ⟨10, 10, 1, some ⟨0, 0, 50, 50⟩⟩).1 (by norm_num))

/-- C6 counterexample: with an active selection, `zoomIn`, `zoomOut` and
`resetZoom` all leave the selection in place — no zoom change clears the
SelectionRect (the handlers only call `setScale`). -/
theorem zoom_keeps_selection_counterexample :
    (zoomIn ⟨1, 10, 1, some ⟨0, 0, 50, 50⟩⟩).cropArea = some ⟨0, 0, 50, 50⟩ ∧
    (zoomOut ⟨1, 10, 1, some ⟨0, 0, 50, 50⟩⟩).cropArea = some ⟨0, 0, 50, 50⟩ ∧
    (resetZoom ⟨1, 10, 2, some ⟨0, 0, 50, 50⟩⟩).cropArea = some ⟨0, 0, 50, 50⟩ :=
  ⟨rfl, rfl, rfl⟩

/-- C6 (amended): every zoom change keeps the zoom factor inside [0.5, 3.0]
(`zoomIn` and `zoomOut` step by 0.25 and clamp, `resetZoom` sets 1.0), but
zoom changes leave any existing SelectionRect unchanged — only page
navigation and the explicit clear remove it. -/
theorem zoom_clamped_keeps_selection (s : ViewerState)
    (hlo : 0.5 ≤ s.scale) (hhi : s.scale ≤ 3) :
    (0.5 ≤ (zoomIn s).scale ∧ (zoomIn s).scale ≤ 3 ∧
      (zoomIn s).cropArea = s.cropArea) ∧
    (0.5 ≤ (zoomOut s).scale ∧ (zoomOut s).scale ≤ 3 ∧
      (zoomOut s).cropArea = s.cropArea) ∧
    ((resetZoom s).scale = 1 ∧ (resetZoom s).cropArea = s.cropArea) := by
  refine ⟨⟨?_, ?_, rfl⟩, ⟨?_, ?_, rfl⟩, rfl, rfl⟩
  · exact le_min (by linarith) (by norm_num)
  · exact min_le_right _ _
  · exact le_max_right _ _
  · exact max_le (by linarith) (by norm_num)

/-- Witness for C6 (amended): from scale 3 with an active selection, zooming
in stays clamped at 3 and the selection survives. -/
theorem zoom_clamped_keeps_selection_witness :
    (0.5 ≤ (zoomIn ⟨1, 10, 3, some ⟨0, 0, 50, 50⟩⟩).scale ∧
      (zoomIn ⟨1, 10, 3, some ⟨0, 0, 50, 50⟩⟩).scale ≤ 3 ∧
      (zoomIn ⟨1, 10, 3, some ⟨0, 0, 50, 50⟩⟩).cropArea = some ⟨0, 0, 50, 50⟩) ∧
    (0.5 ≤ (zoomOut ⟨1, 10, 3, some ⟨0, 0, 50, 50⟩⟩).scale ∧
      (zoomOut ⟨1, 10, 3, some ⟨0, 0, 50, 50⟩⟩).scale ≤ 3 ∧
      (zoomOut ⟨1, 10, 3, some ⟨0, 0, 50, 50⟩⟩).cropArea = some ⟨0, 0, 50, 50⟩) ∧
    ((resetZoom ⟨1, 10, 3, some ⟨0, 0, 50, 50⟩⟩).scale = 1 ∧
      (resetZoom ⟨1, 10, 3, some ⟨0, 0, 50, 50⟩⟩).cropArea = some ⟨0, 0, 50, 50⟩) :=
  zoom_clamped_keeps_selection ⟨1, 10, 3, some ⟨0, 0, 50, 50⟩⟩
    (by norm_num) (by norm_num)

/-- The passphrase-gate state in PDFViewer (lines 44-51): whether the
PasswordModal is shown, the current error message, and the held resolver
(`passwordCallbackRef.current`), with resolver callbacks identified by
numeric ids. -/
structure GateState where
  showPasswordModal : Bool
  passwordError : String
  passwordCallback : Option ℕ
  deriving DecidableEq

/-- Events against the gate: `password id reason` is the library's
`onPassword` signal (PDFViewer.tsx 73-80) delivering a fresh resolver;
`submit pw` is `handlePasswordSubmit` (60-65); `cancel` is
`handlePasswordCancel` (67-71); `loadSuccess` is `onDocumentLoadSuccess`
(53-58). -/
inductive GateEvent where
  | password (id : ℕ) (reason : ℕ)
  | submit (pw : String)
  | cancel
  | loadSuccess
  deriving DecidableEq

/-- One event step of the gate: the next state together with the list of
resolver invocations (resolver id, string argument) the handler performs.
Line by line from the handlers: `onPassword` stores the callback and shows
the modal, setting the error text only for reason 2; `handlePasswordSubmit`
invokes the held resolver with the entered password and hides the modal but
does NOT clear the held callback; `handlePasswordCancel` hides the modal,
clears the error and drops the callback WITHOUT invoking it (the callback
type `(password: string) => void` admits no cancellation value);
`onDocumentLoadSuccess` hides the modal, clears the error and drops the
callback. -/
def gateStep (s : GateState) : GateEvent → GateState × List (ℕ × String)
  | GateEvent.password id reason =>
      (⟨true,
        if reason = 2 then "Incorrect password. Please try again."
        else s.passwordError,
        some id⟩, [])
  | GateEvent.submit pw =>
      match s.passwordCallback with
      | some id => (⟨false, s.passwordError, some id⟩, [(id, pw)])
      | none => (s, [])
  | GateEvent.cancel => (⟨false, "", none⟩, [])
  | GateEvent.loadSuccess => (⟨false, "", none⟩, [])

/-- Run a list of events through the gate, accumulating all resolver
invocations in order. -/
def runGate : GateState → List GateEvent → GateState × List (ℕ × String)
  | s, [] => (s, [])
  | s, e :: es =>
      ((runGate (gateStep s e).1 es).1,
        (gateStep s e).2 ++ (runGate (gateStep s e).1 es).2)

/-- Whether an event is a modal submit. -/
def isSubmit : GateEvent → Bool
  | GateEvent.submit _ => true
  | _ => false

/-- A UI-reachable event trace: the PasswordModal renders nothing while
`isOpen` is false (PasswordModal.tsx returns no DOM in that case), so a
submit event can only be dispatched from a state whose modal is shown. -/
def uiReachable : GateState → List GateEvent → Bool
  | _, [] => true
  | s, e :: es =>
      (!isSubmit e || s.showPasswordModal) && uiReachable (gateStep s e).1 es

/-- The resolver ids delivered by the password events of a trace. -/
def passwordIds : List GateEvent → List ℕ
  | [] => []
  | GateEvent.password id _ :: es => id :: passwordIds es
  | _ :: es => passwordIds es

/-- The resolver id a submit dispatched right now could invoke: the held
callback, provided the modal is currently shown. -/
def liveCallback (s : GateState) : List ℕ :=
  if s.showPasswordModal then s.passwordCallback.toList else []

/-- Along a UI-reachable trace, every invoked resolver id is either the one
live at the start or one delivered by a password event of the trace. -/
theorem runGate_invoked_subset (es : List GateEvent) : ∀ s : GateState,
    uiReachable s es = true →
    ((runGate s es).2.map Prod.fst) ⊆ liveCallback s ++ passwordIds es := by
  induction es with
  | nil =>
      intro s _
      simp [runGate]
  | cons e es ih =>
      intro s hui
      simp only [uiReachable, Bool.and_eq_true] at hui
      obtain ⟨hsub, hrest⟩ := hui
      intro a ha
      cases e with
      | password id reason =>
          have hstep2 : (gateStep s (GateEvent.password id reason)).2 = [] := rfl
          have hpids : passwordIds (GateEvent.password id reason :: es) =
              id :: passwordIds es := rfl
          simp only [runGate, hstep2, List.nil_append] at ha
          have h2 := ih _ hrest ha
          have hlive : liveCallback (gateStep s (GateEvent.password id reason)).1 =
              [id] := rfl
          rw [hlive] at h2
          rw [hpids]
          rcases List.mem_append.mp h2 with h | h
          · rw [List.mem_singleton] at h
            subst h
            exact List.mem_append_right _ (List.mem_cons_self _ _)
          · exact List.mem_append_right _ (List.mem_cons_of_mem _ h)
      | submit pw =>
          have hmodal : s.showPasswordModal = true := by
            simpa [isSubmit] using hsub
          have hpids : passwordIds (GateEvent.submit pw :: es) = passwordIds es := rfl
          rw [hpids]
          rcases hcb : s.passwordCallback with _ | id
          · have hstep : gateStep s (GateEvent.submit pw) = (s, []) := by
              simp [gateStep, hcb]
            simp only [runGate, hstep, List.nil_append] at ha
            exact ih s (by rwa [hstep] at hrest) ha
          · have hstep : gateStep s (GateEvent.submit pw) =
                (⟨false, s.passwordError, some id⟩, [(id, pw)]) := by
              simp [gateStep, hcb]
            simp only [runGate, hstep] at ha
            simp only [List.singleton_append, List.map_cons, List.mem_cons] at ha
            rcases ha with rfl | ha
            · apply List.mem_append_left
              simp [liveCallback, hmodal, hcb]
            · have h2 := ih _ (by rwa [hstep] at hrest) ha
              rw [show liveCallback (⟨false, s.passwordError, some id⟩ : GateState) = []
                    from rfl,
                List.nil_append] at h2
              exact List.mem_append_right _ h2
      | cancel =>
          have hstep : gateStep s GateEvent.cancel = (⟨false, "", none⟩, []) := rfl
          have hpids : passwordIds (GateEvent.cancel :: es) = passwordIds es := rfl
          simp only [runGate, hstep, List.nil_append] at ha
          have h2 := ih _ (by rwa [hstep] at hrest) ha
          rw [show liveCallback (⟨false, "", none⟩ : GateState) = [] from rfl,
            List.nil_append] at h2
          rw [hpids]
          exact List.mem_append_right _ h2
      | loadSuccess =>
          have hstep : gateStep s GateEvent.loadSuccess = (⟨false, "", none⟩, []) := rfl
          have hpids : passwordIds (GateEvent.loadSuccess :: es) = passwordIds es := rfl
          simp only [runGate, hstep, List.nil_append] at ha
          have h2 := ih _ (by rwa [hstep] at hrest) ha
          rw [show liveCallback (⟨false, "", none⟩ : GateState) = [] from rfl,
            List.nil_append] at h2
          rw [hpids]
          exact List.mem_append_right _ h2

/-- Along a UI-reachable trace with pairwise-distinct password-request ids and
no stale live resolver, every resolver id is invoked at most once. -/
theorem runGate_invoked_nodup (es : List GateEvent) : ∀ s : GateState,
    (passwordIds es).Nodup → uiReachable s es = true →
    (∀ id, s.showPasswordModal = true → s.passwordCallback = some id →
      id ∉ passwordIds es) →
    ((runGate s es).2.map Prod.fst).Nodup := by
  induction es with
  | nil =>
      intro s _ _ _
      simp [runGate]
  | cons e es ih =>
      intro s hnd hui hfresh
      simp only [uiReachable, Bool.and_eq_true] at hui
      obtain ⟨hsub, hrest⟩ := hui
      cases e with
      | password id reason =>
          have hstep2 : (gateStep s (GateEvent.password id reason)).2 = [] := rfl
          have hpids : passwordIds (GateEvent.password id reason :: es) =
              id :: passwordIds es := rfl
          rw [hpids, List.nodup_cons] at hnd
          simp only [runGate, hstep2, List.nil_append]
          apply ih _ hnd.2 hrest
          intro id' hm hc
          have hcc : id = id' := by simpa [gateStep] using hc
          subst hcc
          exact hnd.1
      | submit pw =>
          have hmodal : s.showPasswordModal = true := by
            simpa [isSubmit] using hsub
          have hpids : passwordIds (GateEvent.submit pw :: es) = passwordIds es := rfl
          rw [hpids] at hnd hfresh
          rcases hcb : s.passwordCallback with _ | id
          · have hstep : gateStep s (GateEvent.submit pw) = (s, []) := by
              simp [gateStep, hcb]
            simp only [runGate, hstep, List.nil_append]
            exact ih s hnd (by rwa [hstep] at hrest) hfresh
          · have hstep : gateStep s (GateEvent.submit pw) =
                (⟨false, s.passwordError, some id⟩, [(id, pw)]) := by
              simp [gateStep, hcb]
            simp only [runGate, hstep, List.singleton_append, List.map_cons,
              List.nodup_cons]
            constructor
            · intro hmem
              have hsubset := runGate_invoked_subset es
                ⟨false, s.passwordError, some id⟩ (by rwa [hstep] at hrest) hmem
              rw [show liveCallback (⟨false, s.passwordError, some id⟩ : GateState) = []
                    from rfl,
                List.nil_append] at hsubset
              exact hfresh id hmodal hcb hsubset
            · apply ih _ hnd (by rwa [hstep] at hrest)
              intro id' hm hc
              simp at hm
      | cancel =>
          have hstep : gateStep s GateEvent.cancel = (⟨false, "", none⟩, []) := rfl
          have hpids : passwordIds (GateEvent.cancel :: es) = passwordIds es := rfl
          rw [hpids] at hnd
          simp only [runGate, hstep, List.nil_append]
          apply ih _ hnd (by rwa [hstep] at hrest)
          intro id' hm hc
          simp at hc
      | loadSuccess =>
          have hstep : gateStep s GateEvent.loadSuccess = (⟨false, "", none⟩, []) := rfl
          have hpids : passwordIds (GateEvent.loadSuccess :: es) = passwordIds es := rfl
          rw [hpids] at hnd
          simp only [runGate, hstep, List.nil_append]
          apply ih _ hnd (by rwa [hstep] at hrest)
          intro id' hm hc
          simp at hc

/-- C8: the gate holds at most one resolver at a time (a single optional
callback slot), and along every UI-reachable event trace whose passphrase
requests carry pairwise-distinct resolvers, no resolver is ever invoked more
than once; moreover submitting while no resolver is held — after the request
has been resolved and cleared, or after the gate has moved on — is a no-op
that changes nothing and invokes nothing. -/
theorem gate_resolver_at_most_once (es : List GateEvent)
    (hnd : (passwordIds es).Nodup)
    (hui : uiReachable ⟨false, "", none⟩ es = true) :
    ((runGate ⟨false, "", none⟩ es).2.map Prod.fst).Nodup ∧
    (∀ (s : GateState) (pw : String), s.passwordCallback = none →
      gateStep s (GateEvent.submit pw) = (s, [])) := by
  constructor
  · apply runGate_invoked_nodup es _ hnd hui
    intro id hm hc
    simp at hc
  · intro s pw hc
    simp [gateStep, hc]

/-- Witness for C8: the scenario first request (id 1) → wrong passphrase →
re-request with reason 2 (fresh id 2) → correct passphrase → load success:
each resolver is invoked exactly once, so the invoked-id list [1, 2] has no
duplicate. -/
theorem gate_resolver_at_most_once_witness :
    ((runGate ⟨false, "", none⟩
        [GateEvent.password 1 1, GateEvent.submit "wrong",
         GateEvent.password 2 2, GateEvent.submit "right",
         GateEvent.loadSuccess]).2.map Prod.fst).Nodup :=
  (gate_resolver_at_most_once
    [GateEvent.password 1 1, GateEvent.submit "wrong",
     GateEvent.password 2 2, GateEvent.submit "right",
     GateEvent.loadSuccess] (by decide) (by decide)).1

/-- C7 counterexample: with the prompt open and resolver 0 held, cancelling
performs no resolver invocation at all — the handler only hides the modal,
clears the error and nulls the callback ref; no cancellation signal is passed
to the held resolver (whose type admits no such value). -/
theorem gate_cancel_counterexample :
    (⟨true, "", some 0⟩ : GateState).passwordCallback = some 0 ∧
    gateStep ⟨true, "", some 0⟩ GateEvent.cancel = (⟨false, "", none⟩, []) :=
  ⟨rfl, rfl⟩

/-- C7 (amended): cancelling the passphrase prompt transitions the gate to
Closed — modal hidden, error cleared, held resolver dropped — without
invoking the resolver with anything, and the document remains unopened: after
the cancel, further submit events alone can never invoke any resolver. -/
theorem gate_cancel_closes (s : GateState) (pws : List String) :
    gateStep s GateEvent.cancel = (⟨false, "", none⟩, []) ∧
    (runGate (gateStep s GateEvent.cancel).1 (pws.map GateEvent.submit)).2 = [] := by
  have hclosed : ∀ l : List String,
      runGate ⟨false, "", none⟩ (l.map GateEvent.submit) = (⟨false, "", none⟩, []) := by
    intro l
    induction l with
    | nil => rfl
    | cons p ps ih => simp [runGate, gateStep, ih]
  refine ⟨rfl, ?_⟩
  rw [show (gateStep s GateEvent.cancel).1 = (⟨false, "", none⟩ : GateState) from rfl,
    hclosed pws]

/-- Witness for C7 (amended): cancelling with resolver 5 held while an error
message is displayed, then submitting twice more, invokes nothing. -/
theorem gate_cancel_closes_witness :
    gateStep ⟨true, "Incorrect password. Please try again.", some 5⟩
        GateEvent.cancel = (⟨false, "", none⟩, []) ∧
    (runGate (gateStep ⟨true, "Incorrect password. Please try again.", some 5⟩
        GateEvent.cancel).1
      (["a", "b"].map GateEvent.submit)).2 = [] :=
  gate_cancel_closes ⟨true, "Incorrect password. Please try again.", some 5⟩
    ["a", "b"]

end PdfEditPrint
